import Mathlib

/-!
Verification development for `main.py` of the annotate-video-with-multimodal-model
repository: a pipeline that samples frames of a video at a fixed interval, sends
each frame to a multimodal model, and writes the collected annotations to a CSV
file next to the video.

The embedding is shallow.  Python floats are modelled as rationals, Python `str`
values that the program slices and inspects are modelled as `List Char`, Python
exceptions that the program does not catch are modelled with `Except`, and the
external world (file existence, the inference endpoint, frame decoding, the
responses of the model) is a record of oracles `VideoWorld`.  `json.loads` is an
external library routine, so it is a parameter `json_loads` of the functions
that use it.  The driver `process_video` additionally returns a trace of the
observable effects and log lines relevant to the specification.
-/

deriving instance DecidableEq for Except

namespace AnnotateVideo

/-- Python exceptions that `main.py` can raise on paths where it does not
catch them: `ZeroDivisionError` from `/`, `TypeError` from `str.join`,
`ValueError` from `Path.with_suffix`. -/
inductive PyError
  | zeroDivision
  | typeError
  | valueError
deriving DecidableEq, Repr

/-- Python numeric division: raises `ZeroDivisionError` on a zero divisor
(also for float operands), otherwise exact division (floats modelled as
rationals). -/
def pydiv (a b : ℚ) : Except PyError ℚ :=
  if b = 0 then .error .zeroDivision else .ok (a / b)

/-- Python `int(..)` applied to a float: truncation toward zero. -/
def pyint (q : ℚ) : ℤ :=
  if 0 ≤ q then ⌊q⌋ else ⌈q⌉

/-- Round to the nearest integer, ties to even — the rounding mode of the Python
built-in `round`. -/
def roundHalfEven (x : ℚ) : ℤ :=
  if x - ⌊x⌋ < 1/2 then ⌊x⌋
  else if 1/2 < x - ⌊x⌋ then ⌊x⌋ + 1
  else if ⌊x⌋ % 2 = 0 then ⌊x⌋ else ⌊x⌋ + 1

/-- Python `round(q, 2)` (main.py line 145). -/
def pyround2 (q : ℚ) : ℚ := (roundHalfEven (q * 100) : ℚ) / 100

/-- A JSON value as far as the model responses handled by `main.py` are
concerned: strings, arrays of short strings (`persons` / `objects`), numbers,
and `null` (which also stands for a missing-cell `NaN`). -/
inductive JValue
  | jstr (s : String)
  | jarr (xs : List String)
  | jnum (q : ℚ)
  | jnull
deriving DecidableEq, Repr

/-- A parsed JSON object, i.e. a Python `dict`, as an association list. -/
abbrev JObj := List (String × JValue)

/-- Python `key in data` for a dict. -/
def jmem (data : JObj) (k : String) : Bool :=
  data.any (fun p => p.1 == k)

/-- Python `data[key]` / `data.get(key)` for a dict, as an `Option`. -/
def lookupJ (data : JObj) (k : String) : Option JValue :=
  (data.find? (fun p => p.1 == k)).map (fun p => p.2)

/-- The list `required_keys` of the main.py function get_frame_annotation (line 70). -/
def required_keys : List String :=
  ["title", "caption", "scene_description", "persons", "objects"]

/-- The fixed `column_order` of `process_video` (main.py lines 168-175). -/
def column_order : List String :=
  ["timestamp", "title", "caption", "scene_description", "persons", "objects"]

/-- Python `sep.join(x)`: joins a list of strings; a plain string is iterated
character by character; a number or `None` is not iterable and raises
`TypeError`. -/
def pyJoin (sep : String) (v : JValue) : Except PyError String :=
  match v with
  | .jarr xs => .ok (String.intercalate sep xs)
  | .jstr s => .ok (String.intercalate sep (s.data.map Char.toString))
  | .jnum _ => .error .typeError
  | .jnull => .error .typeError

/-- Outcome of the chat-completion request of `get_frame_annot`: either a
response whose message content is a string, or an exception raised during the
API call (connection refused, timeout, malformed reply object, ...). -/
inductive ApiResult
  | content (c : List Char)
  | apiError
deriving DecidableEq, Repr

/-- Observable effects and log lines of one run of `process_video`, in order.
`probe` is the `client.models.list()` capability check (main.py line 101),
`readFrame t` is the `cap.set`/`cap.read` pair at timestamp `t` (lines
130-132), `annotateCall t` is the inference request for the frame at `t`
(line 142), and the `warn…`/`err…` events are the warning/error prints. -/
inductive Event
  | probe
  | openVideo
  | readFrame (t : ℚ)
  | annotateCall (t : ℚ)
  | errApiComm
  | errJsonDecode
  | warnMissingKeys
  | warnFailedAnnot (t : ℚ)
  | successMsg (t : ℚ)
  | noAnnotationsMsg
  | writeFile (path : String)
deriving DecidableEq, Repr

/-- main.py lines 64-65:
`if content.startswith("```json"): content = content[7:-4]` —
the fence heuristic drops the first 7 characters and the last 4. -/
def strip_markdown (content : List Char) : List Char :=
  if "```json".data.isPrefixOf content then
    (content.drop 7).take (content.length - 11)
  else content

/-- The key-presence check of `get_frame_annot` (main.py lines 70-73):
`all(key in data for key in required_keys)`. -/
def validate (data : JObj) : Option JObj :=
  if required_keys.all (fun k => jmem data k) then some data else none

/-- Model of the main.py function get_frame_annotation (lines 14-82), from the point where the API
call returns.  `json_loads` models the library routine `json.loads`, returning
`none` exactly when Python would raise `json.JSONDecodeError`.  Returns the
parsed annotation dict (or `none` on any failure) together with the log lines
printed inside the function. -/
def get_frame_annot (json_loads : List Char → Option JObj)
    (resp : ApiResult) : Option JObj × List Event :=
  match resp with
  | .apiError => (none, [.errApiComm])
  | .content c =>
    match json_loads (strip_markdown c) with
    | none => (none, [.errJsonDecode])
    | some data =>
      match validate data with
      | some d => (some d, [])
      | none => (none, [.warnMissingKeys])

/-- One data row of the output table.  Its fields are, in order, the fixed
`column_order` columns that `df = df[column_order]` selects (main.py lines
167-176); `persons` and `objects` have already been flattened to
comma-joined strings (lines 147-148). -/
structure Row where
  timestamp : ℚ
  title : JValue
  caption : JValue
  scene_description : JValue
  persons : String
  objects : String
deriving DecidableEq, Repr

/-- The per-annotation post-processing of `process_video` (main.py lines
144-149 and the column selection of lines 167-176): set
`annotation["timestamp"]`, flatten `persons` and `objects` with
`", ".join(..)` (a raised `TypeError` propagates: the loop does not catch it),
and keep the six fixed columns.  A key that validation guaranteed present is
read with a `jnull` (pandas `NaN`) fallback. -/
def mkRow (ts : ℚ) (data : JObj) : Except PyError Row :=
  match pyJoin ", " ((lookupJ data "persons").getD (.jarr [])),
        pyJoin ", " ((lookupJ data "objects").getD (.jarr [])) with
  | .ok ps, .ok os =>
    .ok { timestamp := ts
          title := (lookupJ data "title").getD .jnull
          caption := (lookupJ data "caption").getD .jnull
          scene_description := (lookupJ data "scene_description").getD .jnull
          persons := ps
          objects := os }
  | .error e, _ => .error e
  | _, .error e => .error e

/-- The external world of one run: whether the video file exists
(`os.path.exists`), whether the LMStudio endpoint answers the capability
probe, whether `cv2.VideoCapture` can open the container, the reported frame
rate and frame count, whether `cap.read()` succeeds at a given sample
timestamp, and the response of the model for the frame at a given timestamp. -/
structure VideoWorld where
  video_exists : Bool
  connect_ok : Bool
  cap_opened : Bool
  fps : ℚ
  total_frames : ℕ
  read_frame : ℚ → Bool
  api_response : ℚ → ApiResult

/-- The keyframe timestamps of main.py lines 124-126:
`[i * interval_seconds for i in range(int(q))]` where `q` is the already
computed `duration_seconds / interval_seconds`. -/
def mkTimestamps (q : ℚ) (interval : ℤ) : List ℚ :=
  (List.range (pyint q).toNat).map (fun (i : ℕ) => (i : ℚ) * (interval : ℚ))

/-- The timestamps a run over world `w` with interval `I` iterates, namely
`mkTimestamps` of `(total_frames / fps) / I` (meaningful when `fps ≠ 0` and
`I ≠ 0`, the case in which the run reaches the loop at all). -/
def tsOf (w : VideoWorld) (I : ℤ) : List ℚ :=
  mkTimestamps (((w.total_frames : ℚ) / w.fps) / (I : ℚ)) I

/-- Whether the run annotates timestamp `t` successfully: the frame decodes
and `get_frame_annot` returns a dict. -/
def annSucceeds (json_loads : List Char → Option JObj) (w : VideoWorld)
    (t : ℚ) : Bool :=
  w.read_frame t && ((get_frame_annot json_loads (w.api_response t)).1).isSome

/-- The per-timestamp loop of `process_video` (main.py lines 128-158).
Returns the events in program order and either the collected rows (an
uncaught exception from the `join` calls aborts the run).  A failed
`cap.read()` silently falls through to the next timestamp (lines 134-135);
a failed annotation prints the warning of line 155; a successful annotation
is appended (line 149) after the `timestamp`/`persons`/`objects`
post-processing of lines 145-148. -/
def runLoop (json_loads : List Char → Option JObj) (w : VideoWorld) :
    List ℚ → List Event × Except PyError (List Row)
  | [] => ([], .ok [])
  | t :: rest =>
    if w.read_frame t then
      match (get_frame_annot json_loads (w.api_response t)).1 with
      | some data =>
        match mkRow (pyround2 t) data with
        | .error e =>
          ([Event.readFrame t, Event.annotateCall t]
             ++ (get_frame_annot json_loads (w.api_response t)).2,
           .error e)
        | .ok row =>
          ([Event.readFrame t, Event.annotateCall t]
             ++ (get_frame_annot json_loads (w.api_response t)).2
             ++ [Event.successMsg t] ++ (runLoop json_loads w rest).1,
           (runLoop json_loads w rest).2.map (fun rows => row :: rows))
      | none =>
        ([Event.readFrame t, Event.annotateCall t]
           ++ (get_frame_annot json_loads (w.api_response t)).2
           ++ [Event.warnFailedAnnot t] ++ (runLoop json_loads w rest).1,
         (runLoop json_loads w rest).2)
    else
      (Event.readFrame t :: (runLoop json_loads w rest).1,
       (runLoop json_loads w rest).2)

/-- The characters of the last path component: everything after the last
`'/'`.  Models `pathlib.PurePosixPath(p).name` for a path without redundant
or trailing separators. -/
def afterLastSep : List Char → List Char
  | [] => []
  | c :: cs => if c = '/' ∨ cs.contains '/' then afterLastSep cs else c :: cs

/-- Index of the last `'.'` of a file name, if any. -/
def lastDotIdx (cs : List Char) : Option ℕ :=
  match cs.reverse.findIdx? (fun c => c == '.') with
  | none => none
  | some j => some (cs.length - 1 - j)

/-- Model of `pathlib.PurePath.suffix`: the extension from the last dot on, but only
when that dot is neither the first nor the last character of the name. -/
def suffixOf (name : List Char) : List Char :=
  match lastDotIdx name with
  | none => []
  | some i => if 0 < i ∧ i + 1 < name.length then name.drop i else []

/-- The last component of a path as a list of characters. -/
def fileNameOf (p : String) : List Char := afterLastSep p.data

/-- The leading directory part of a path (with its trailing separator). -/
def dirOf (p : String) : List Char :=
  p.data.take (p.data.length - (fileNameOf p).length)

/-- The file name without its `suffixOf` extension. -/
def stemOf (p : String) : List Char :=
  (fileNameOf p).take ((fileNameOf p).length - (suffixOf (fileNameOf p)).length)

/-- Model of `pathlib.Path(path).with_suffix(suffix)` (main.py line 179), for a POSIX
path without redundant separators: validate the new suffix, require a
nonempty file name, drop the old suffix and append the new one.  The
`ValueError` branches mirror the CPython `PurePath.with_suffix`. -/
def with_suffix (path : String) (suffix : String) : Except PyError String :=
  if suffix.data.contains '/' then .error .valueError
  else if (suffix ≠ "" ∧ suffix.data.head? ≠ some '.') ∨ suffix = "." then
    .error .valueError
  else if fileNameOf path = [] then .error .valueError
  else .ok (String.mk (dirOf path ++ stemOf path ++ suffix.data))

/-- The written output table: the header row and the data rows, with the
columns of every row in the fixed `column_order`. -/
structure CsvFile where
  header : List String
  rows : List Row
deriving DecidableEq, Repr

/-- Terminal state of one `process_video` run. -/
inductive PipelineResult
  | errVideoNotFound
  | errConnect
  | errOpenVideo
  | crash (e : PyError)
  | noAnnotations
  | saved (path : String) (csv : CsvFile)
deriving DecidableEq, Repr

/-- Model of `process_video` (main.py lines 85-181): existence check, endpoint probe,
container open, duration and timestamp computation (unguarded divisions),
the annotation loop, and finalization (no file when no annotation succeeded,
otherwise write the table to `Path(video_path).with_suffix(".csv")`).
Returns the terminal state and the event trace. -/
def process_video (json_loads : List Char → Option JObj) (w : VideoWorld)
    (video_path : String) (interval_seconds : ℤ) :
    PipelineResult × List Event :=
  if w.video_exists then
    if w.connect_ok then
      if w.cap_opened then
        match pydiv (w.total_frames : ℚ) w.fps with
        | .error e => (.crash e, [.probe, .openVideo])
        | .ok duration =>
          match pydiv duration (interval_seconds : ℚ) with
          | .error e => (.crash e, [.probe, .openVideo])
          | .ok q =>
            match (runLoop json_loads w (mkTimestamps q interval_seconds)).2 with
            | .error e =>
              (.crash e,
               [Event.probe, Event.openVideo]
                 ++ (runLoop json_loads w (mkTimestamps q interval_seconds)).1)
            | .ok rows =>
              if rows.isEmpty then
                (.noAnnotations,
                 [Event.probe, Event.openVideo]
                   ++ (runLoop json_loads w (mkTimestamps q interval_seconds)).1
                   ++ [Event.noAnnotationsMsg])
              else
                match with_suffix video_path ".csv" with
                | .error e =>
                  (.crash e,
                   [Event.probe, Event.openVideo]
                     ++ (runLoop json_loads w (mkTimestamps q interval_seconds)).1)
                | .ok out =>
                  (.saved out ⟨column_order, rows⟩,
                   [Event.probe, Event.openVideo]
                     ++ (runLoop json_loads w (mkTimestamps q interval_seconds)).1
                     ++ [Event.writeFile out])
      else (.errOpenVideo, [.probe])
    else (.errConnect, [.probe])
  else (.errVideoNotFound, [])

/-- The events that the annotation loop can emit: none of the driver-level
`probe` / `openVideo` / `noAnnotationsMsg` / `writeFile` effects. -/
def benignEvent (e : Event) : Prop :=
  e ≠ .probe ∧ e ≠ .openVideo ∧ e ≠ .noAnnotationsMsg ∧ ∀ p, e ≠ .writeFile p

/-- The canonical recognized markdown code fence around a JSON payload:
the fence marker that the heuristic of main.py is written for
(three backticks and `json`, a newline, the payload, a newline, three
backticks). -/
def wrapFence (s : List Char) : List Char :=
  "```json\n".data ++ s ++ "\n```".data

/-- A concrete raw model response used by the concrete instantiations below;
any string not starting with a fence marker works. -/
def demoStr : List Char := "(demo)".data

/-- A concrete well-formed annotation dict with the five required keys. -/
def demoObj : JObj :=
  [("title", .jstr "t"), ("caption", .jstr "c"),
   ("scene_description", .jstr "s"),
   ("persons", .jarr ["a", "b"]), ("objects", .jarr ["x"])]

/-- The dict `demoObj` with an extra key beyond the five required ones. -/
def demoObjExtra : JObj := demoObj ++ [("extra", .jstr "e")]

/-- A concrete `json_loads` oracle: parses `demoStr` (bare or with the leading
newline left over after fence stripping) to `demoObj`, rejects anything
else. -/
def demoLoads (s : List Char) : Option JObj :=
  if s = demoStr ∨ s = '\n' :: demoStr then some demoObj else none

/-- A concrete `json_loads` oracle that parses `demoStr` to the dict with an
extra key. -/
def extraLoads (s : List Char) : Option JObj :=
  if s = demoStr then some demoObjExtra else none

/-- A `json_loads` oracle that rejects every string. -/
def noLoads : List Char → Option JObj := fun _ => none

/-- A 2-second 1-fps world in which both sampled frames decode and the model
answers `demoStr` both times. -/
def w2 : VideoWorld :=
  { video_exists := true, connect_ok := true, cap_opened := true
    fps := 1, total_frames := 2
    read_frame := fun _ => true
    api_response := fun _ => .content demoStr }

/-- The rows the `w2` run produces. -/
def demoRows : List Row :=
  [⟨0, .jstr "t", .jstr "c", .jstr "s", "a, b", "x"⟩,
   ⟨1, .jstr "t", .jstr "c", .jstr "s", "a, b", "x"⟩]

/-- A 2-second 1-fps world whose frame at timestamp 0 fails to decode and
whose API calls all fail. -/
def w0 : VideoWorld :=
  { video_exists := true, connect_ok := true, cap_opened := true
    fps := 1, total_frames := 2
    read_frame := fun t => decide (t ≠ 0)
    api_response := fun _ => .apiError }

/-- A 1-second 1-fps world whose single API call fails in transport. -/
def w4 : VideoWorld :=
  { video_exists := true, connect_ok := true, cap_opened := true
    fps := 1, total_frames := 1
    read_frame := fun _ => true
    api_response := fun _ => .apiError }

/-- A 1-second 1-fps world whose single frame fails to decode. -/
def w5 : VideoWorld :=
  { video_exists := true, connect_ok := true, cap_opened := true
    fps := 1, total_frames := 1
    read_frame := fun _ => false
    api_response := fun _ => .apiError }

/-- A world whose video file does not exist. -/
def w7 : VideoWorld :=
  { video_exists := false, connect_ok := true, cap_opened := true
    fps := 1, total_frames := 1
    read_frame := fun _ => true
    api_response := fun _ => .apiError }

/-- An opened world that reports a frame rate of zero. -/
def w9 : VideoWorld :=
  { video_exists := true, connect_ok := true, cap_opened := true
    fps := 0, total_frames := 100
    read_frame := fun _ => true
    api_response := fun _ => .apiError }

theorem roundHalfEven_intCast (m : ℤ) : roundHalfEven ((m : ℚ)) = m := by
  unfold roundHalfEven
  rw [Int.floor_intCast, sub_self]
  norm_num

theorem pyround2_intCast (m : ℤ) : pyround2 ((m : ℚ)) = (m : ℚ) := by
  unfold pyround2
  have h : ((m : ℚ)) * 100 = (((m * 100 : ℤ)) : ℚ) := by push_cast; ring
  rw [h, roundHalfEven_intCast]
  push_cast
  ring

theorem mkRow_timestamp (ts : ℚ) (data : JObj) (row : Row)
    (h : mkRow ts data = .ok row) : row.timestamp = ts := by
  unfold mkRow at h
  rcases hp : pyJoin ", " ((lookupJ data "persons").getD (.jarr [])) with e | ps <;>
    rcases ho : pyJoin ", " ((lookupJ data "objects").getD (.jarr [])) with e2 | os <;>
      rw [hp, ho] at h <;> simp at h
  rw [← h]

theorem gfa_events (json_loads : List Char → Option JObj) (r : ApiResult) :
    ∀ e ∈ (get_frame_annot json_loads r).2,
      e = .errApiComm ∨ e = .errJsonDecode ∨ e = .warnMissingKeys := by
  intro e he
  rcases r with c | _
  · simp only [get_frame_annot] at he
    rcases hj : json_loads (strip_markdown c) with _ | data
    · simp [hj] at he; simp [he]
    · rcases hv : validate data with _ | d
      · simp [hj, hv] at he; simp [he]
      · simp [hj, hv] at he
  · simp only [get_frame_annot] at he
    simp at he; simp [he]

theorem benign_readFrame (t : ℚ) : benignEvent (.readFrame t) := by simp [benignEvent]

theorem benign_annotateCall (t : ℚ) : benignEvent (.annotateCall t) := by simp [benignEvent]

theorem benign_errApiComm : benignEvent .errApiComm := by simp [benignEvent]

theorem benign_errJsonDecode : benignEvent .errJsonDecode := by simp [benignEvent]

theorem benign_warnMissingKeys : benignEvent .warnMissingKeys := by simp [benignEvent]

theorem benign_warnFailedAnnot (t : ℚ) : benignEvent (.warnFailedAnnot t) := by
  simp [benignEvent]

theorem benign_successMsg (t : ℚ) : benignEvent (.successMsg t) := by simp [benignEvent]

theorem runLoop_events (json_loads : List Char → Option JObj) (w : VideoWorld) :
    ∀ ts : List ℚ, ∀ e ∈ (runLoop json_loads w ts).1, benignEvent e := by
  intro ts
  induction ts with
  | nil => intro e he; simp [runLoop] at he
  | cons t rest ih =>
    have h1 : ∀ x ∈ [Event.readFrame t, Event.annotateCall t], benignEvent x := by
      intro x hx
      rcases List.mem_cons.mp hx with h | h
      · subst h; exact benign_readFrame t
      · rcases List.mem_cons.mp h with h2 | h2
        · subst h2; exact benign_annotateCall t
        · simp at h2
    have h2 : ∀ x ∈ (get_frame_annot json_loads (w.api_response t)).2,
        benignEvent x := by
      intro x hx
      rcases gfa_events json_loads (w.api_response t) x hx with h | h | h <;> subst h
      · exact benign_errApiComm
      · exact benign_errJsonDecode
      · exact benign_warnMissingKeys
    intro e he
    rw [runLoop] at he
    by_cases hr : w.read_frame t
    · rw [if_pos hr] at he
      rcases hga : (get_frame_annot json_loads (w.api_response t)).1 with _ | data
      · simp only [hga] at he
        rcases List.mem_append.mp he with h | h
        · rcases List.mem_append.mp h with h3 | h3
          · rcases List.mem_append.mp h3 with h4 | h4
            · exact h1 e h4
            · exact h2 e h4
          · rcases List.mem_cons.mp h3 with h4 | h4
            · subst h4; exact benign_warnFailedAnnot t
            · simp at h4
        · exact ih e h
      · rcases hmk : mkRow (pyround2 t) data with e2 | row
        · simp only [hga, hmk] at he
          rcases List.mem_append.mp he with h | h
          · exact h1 e h
          · exact h2 e h
        · simp only [hga, hmk] at he
          rcases List.mem_append.mp he with h | h
          · rcases List.mem_append.mp h with h3 | h3
            · rcases List.mem_append.mp h3 with h4 | h4
              · exact h1 e h4
              · exact h2 e h4
            · rcases List.mem_cons.mp h3 with h4 | h4
              · subst h4; exact benign_successMsg t
              · simp at h4
          · exact ih e h
    · rw [if_neg hr] at he
      rcases List.mem_cons.mp he with h | h
      · subst h; exact benign_readFrame t
      · exact ih e h

theorem runLoop_rows (json_loads : List Char → Option JObj) (w : VideoWorld) :
    ∀ (ts : List ℚ) (rows : List Row), (runLoop json_loads w ts).2 = .ok rows →
      rows.map (fun r => r.timestamp)
        = (ts.filter (annSucceeds json_loads w)).map pyround2 := by
  intro ts
  induction ts with
  | nil =>
    intro rows h
    simp [runLoop] at h
    subst h
    simp
  | cons t rest ih =>
    intro rows h
    rw [runLoop] at h
    by_cases hr : w.read_frame t
    · rw [if_pos hr] at h
      rcases hga : (get_frame_annot json_loads (w.api_response t)).1 with _ | data
      · simp only [hga] at h
        have hsucc : annSucceeds json_loads w t = false := by
          simp [annSucceeds, hga]
        rw [List.filter_cons_of_neg (by simp [hsucc])]
        exact ih rows h
      · rcases hmk : mkRow (pyround2 t) data with e2 | row
        · simp only [hga, hmk] at h
          cases h
        · simp only [hga, hmk] at h
          rcases hrest : (runLoop json_loads w rest).2 with e3 | rows2
          · rw [hrest] at h; simp [Except.map] at h
          · rw [hrest] at h
            simp only [Except.map] at h
            have hrows : rows = row :: rows2 := by
              cases h; rfl
            subst hrows
            have hsucc : annSucceeds json_loads w t = true := by
              simp [annSucceeds, hr, hga]
            rw [List.filter_cons_of_pos (by simp [hsucc])]
            simp only [List.map_cons]
            rw [mkRow_timestamp (pyround2 t) data row hmk]
            rw [ih rows2 hrest]
    · rw [if_neg hr] at h
      have hsucc : annSucceeds json_loads w t = false := by
        simp [annSucceeds, hr]
      rw [List.filter_cons_of_neg (by simp [hsucc])]
      exact ih rows h

theorem runLoop_no_success (json_loads : List Char → Option JObj) (w : VideoWorld) :
    ∀ ts : List ℚ, ts.countP (annSucceeds json_loads w) = 0 →
      (runLoop json_loads w ts).2 = .ok [] := by
  intro ts
  induction ts with
  | nil => intro _; simp [runLoop]
  | cons t rest ih =>
    intro h0
    rw [List.countP_cons] at h0
    have hfail : annSucceeds json_loads w t = false := by
      by_cases hs : annSucceeds json_loads w t
      · rw [if_pos hs] at h0; omega
      · simpa using hs
    have hrest : rest.countP (annSucceeds json_loads w) = 0 := by omega
    rw [runLoop]
    by_cases hr : w.read_frame t
    · rw [if_pos hr]
      rcases hga : (get_frame_annot json_loads (w.api_response t)).1 with _ | data
      · simp only [hga]
        exact ih hrest
      · exfalso
        have : annSucceeds json_loads w t = true := by simp [annSucceeds, hr, hga]
        rw [this] at hfail
        cases hfail
    · rw [if_neg hr]
      exact ih hrest

theorem mkTimestamps_intValued (q : ℚ) (I : ℤ) :
    ∀ t ∈ mkTimestamps q I, ∃ m : ℤ, t = (m : ℚ) := by
  intro t ht
  simp only [mkTimestamps, List.mem_map, List.mem_range] at ht
  obtain ⟨i, _, rfl⟩ := ht
  exact ⟨(i : ℤ) * I, by push_cast; ring⟩

theorem mkTimestamps_pairwise (q : ℚ) (I : ℤ) (hI : 0 < I) :
    (mkTimestamps q I).Pairwise (fun a b => a < b) := by
  unfold mkTimestamps
  refine List.pairwise_map.mpr ((List.pairwise_lt_range _).imp ?_)
  intro a b hab
  have h1 : ((a : ℚ)) < (b : ℚ) := by exact_mod_cast hab
  have h2 : (0 : ℚ) < (I : ℚ) := by exact_mod_cast hI
  exact mul_lt_mul_of_pos_right h1 h2

theorem mkTimestamps_nil_of_nonpos (q : ℚ) (I : ℤ) (hq : q ≤ 0) :
    mkTimestamps q I = [] := by
  unfold mkTimestamps
  have h0 : (pyint q).toNat = 0 := by
    unfold pyint
    by_cases h : 0 ≤ q
    · have hq0 : q = 0 := le_antisymm hq h
      simp [hq0]
    · rw [if_neg h]
      have : ⌈q⌉ ≤ 0 := Int.ceil_le.mpr (by exact_mod_cast hq)
      omega
  rw [h0]
  simp

/-- Characterization of a run whose startup checks all pass: the result is
determined by the loop outcome and the output-path computation. -/
theorem process_video_run (json_loads : List Char → Option JObj) (w : VideoWorld)
    (vp : String) (I : ℤ)
    (h1 : w.video_exists = true) (h2 : w.connect_ok = true) (h3 : w.cap_opened = true)
    (hf : w.fps ≠ 0) (hI0 : (I : ℚ) ≠ 0) :
    process_video json_loads w vp I =
      (match (runLoop json_loads w (tsOf w I)).2 with
       | .error e =>
         (.crash e, [Event.probe, Event.openVideo] ++ (runLoop json_loads w (tsOf w I)).1)
       | .ok rows =>
         if rows.isEmpty then
           (.noAnnotations,
            [Event.probe, Event.openVideo] ++ (runLoop json_loads w (tsOf w I)).1
              ++ [Event.noAnnotationsMsg])
         else
           match with_suffix vp ".csv" with
           | .error e =>
             (.crash e,
              [Event.probe, Event.openVideo] ++ (runLoop json_loads w (tsOf w I)).1)
           | .ok out =>
             (.saved out ⟨column_order, rows⟩,
              [Event.probe, Event.openVideo] ++ (runLoop json_loads w (tsOf w I)).1
                ++ [Event.writeFile out])) := by
  rw [process_video, if_pos h1, if_pos h2, if_pos h3]
  simp only [pydiv, if_neg hf, if_neg hI0]
  rfl

/-- Inversion: a run that reports a saved file passed every startup check, the
loop succeeded with a nonempty row list, the csv is exactly that row list under
the fixed header, and the path came from `with_suffix`. -/
theorem saved_inversion (json_loads : List Char → Option JObj) (w : VideoWorld)
    (vp : String) (I : ℤ) (p : String) (csv : CsvFile)
    (hs : (process_video json_loads w vp I).1 = .saved p csv) :
    w.video_exists = true ∧ w.connect_ok = true ∧ w.cap_opened = true ∧
    w.fps ≠ 0 ∧ (I : ℚ) ≠ 0 ∧
    ∃ rows, (runLoop json_loads w (tsOf w I)).2 = .ok rows ∧ rows ≠ [] ∧
      csv = ⟨column_order, rows⟩ ∧ with_suffix vp ".csv" = .ok p := by
  by_cases h1 : w.video_exists
  case neg => rw [process_video, if_neg h1] at hs; simp at hs
  by_cases h2 : w.connect_ok
  case neg => rw [process_video, if_pos h1, if_neg h2] at hs; simp at hs
  by_cases h3 : w.cap_opened
  case neg => rw [process_video, if_pos h1, if_pos h2, if_neg h3] at hs; simp at hs
  by_cases hf : w.fps = 0
  case pos =>
    rw [process_video, if_pos h1, if_pos h2, if_pos h3] at hs
    simp only [pydiv, if_pos hf] at hs
    simp at hs
  by_cases hI0 : (I : ℚ) = 0
  case pos =>
    rw [process_video, if_pos h1, if_pos h2, if_pos h3] at hs
    simp only [pydiv, if_neg hf, if_pos hI0] at hs
    simp at hs
  rw [process_video_run json_loads w vp I (by simpa using h1) (by simpa using h2)
    (by simpa using h3) hf hI0] at hs
  rcases hrl : (runLoop json_loads w (tsOf w I)).2 with e | rows
  · simp only [hrl] at hs; simp at hs
  simp only [hrl] at hs
  by_cases hrows : rows.isEmpty
  · rw [if_pos hrows] at hs; simp at hs
  rw [if_neg hrows] at hs
  rcases hws : with_suffix vp ".csv" with e | out
  · simp only [hws] at hs; simp at hs
  simp only [hws, PipelineResult.saved.injEq] at hs
  obtain ⟨hp, hc⟩ := hs
  refine ⟨by simpa using h1, by simpa using h2, by simpa using h3, hf, hI0,
    rows, rfl, ?_, hc.symm, by rw [hp]⟩
  intro hnil
  subst hnil
  simp at hrows

/-- C1: for a video of duration `D = total_frames / fps` and a positive
interval `I`, the generated timestamp sequence has exactly `⌊D / I⌋`
elements, its `k`-th element is `k * I` (so it is `{0, I, 2*I, ...}`), and
every element is strictly less than `D`: the trailing partial interval is
never sampled. -/
theorem c1_frame_sampler_timestamps (total_frames : ℕ) (fps : ℚ) (interval : ℤ)
    (hfps : 0 < fps) (hI : 0 < interval) :
    ((mkTimestamps (((total_frames : ℚ) / fps) / (interval : ℚ)) interval).length : ℤ)
        = ⌊((total_frames : ℚ) / fps) / (interval : ℚ)⌋ ∧
    (∀ k (hk : k < (mkTimestamps (((total_frames : ℚ) / fps) / (interval : ℚ)) interval).length),
        (mkTimestamps (((total_frames : ℚ) / fps) / (interval : ℚ)) interval)[k]
          = (k : ℚ) * (interval : ℚ)) ∧
    ∀ t ∈ mkTimestamps (((total_frames : ℚ) / fps) / (interval : ℚ)) interval,
        t < (total_frames : ℚ) / fps := by
  have hI' : (0 : ℚ) < (interval : ℚ) := by exact_mod_cast hI
  have hD : (0 : ℚ) ≤ (total_frames : ℚ) / fps :=
    div_nonneg (Nat.cast_nonneg _) hfps.le
  have hq : (0 : ℚ) ≤ ((total_frames : ℚ) / fps) / (interval : ℚ) :=
    div_nonneg hD hI'.le
  have hpy : pyint (((total_frames : ℚ) / fps) / (interval : ℚ))
      = ⌊((total_frames : ℚ) / fps) / (interval : ℚ)⌋ := by
    simp [pyint, hq]
  refine ⟨?_, ?_, ?_⟩
  · simp only [mkTimestamps, List.length_map, List.length_range, hpy]
    exact Int.toNat_of_nonneg (Int.floor_nonneg.mpr hq)
  · intro k hk
    simp only [mkTimestamps, List.getElem_map, List.getElem_range]
  · intro t ht
    simp only [mkTimestamps, List.mem_map, List.mem_range] at ht
    obtain ⟨i, hi, rfl⟩ := ht
    rw [hpy] at hi
    have h1 : (i : ℤ) + 1 ≤ ⌊((total_frames : ℚ) / fps) / (interval : ℚ)⌋ := by
      omega
    have h2 : ((i : ℚ) + 1) ≤ ((total_frames : ℚ) / fps) / (interval : ℚ) := by
      exact_mod_cast Int.le_floor.mp h1
    have h3 : ((i : ℚ) + 1) * (interval : ℚ) ≤ (total_frames : ℚ) / fps :=
      (le_div_iff₀ hI').mp h2
    rw [add_mul, one_mul] at h3
    linarith

/-- Witness for `c1_frame_sampler_timestamps`: a 12-second video sampled every
5 seconds yields timestamps all strictly below 12. -/
theorem c1_witness :
    ((mkTimestamps ((((12 : ℕ) : ℚ) / 1) / ((5 : ℤ) : ℚ)) 5).length : ℤ)
        = ⌊(((12 : ℕ) : ℚ) / 1) / ((5 : ℤ) : ℚ)⌋ ∧
    (5 : ℚ) < ((12 : ℕ) : ℚ) / 1 :=
  ⟨(c1_frame_sampler_timestamps 12 1 5 (by norm_num) (by norm_num)).1,
   (c1_frame_sampler_timestamps 12 1 5 (by norm_num) (by norm_num)).2.2 5
     (by with_unfolding_all decide)⟩

/-- C2: a run that writes an output file writes exactly one header row (the
six fixed column names in order) and exactly `N` data rows where `N` is the
number of successfully annotated timestamps (`N ≥ 1`), and the data rows are
in strictly ascending timestamp order.  `0 ≤ fps` records that OpenCV reports
a nonnegative frame rate. -/
theorem c2_output_rows (json_loads : List Char → Option JObj) (w : VideoWorld)
    (vp : String) (I : ℤ) (p : String) (csv : CsvFile)
    (hfps : 0 ≤ w.fps)
    (hs : (process_video json_loads w vp I).1 = .saved p csv) :
    csv.header = column_order ∧
    csv.rows.length = (tsOf w I).countP (annSucceeds json_loads w) ∧
    1 ≤ csv.rows.length ∧
    csv.rows.Pairwise (fun a b => a.timestamp < b.timestamp) := by
  obtain ⟨h1, h2, h3, hf, hI0, rows, hrl, hne, hcsv, hws⟩ :=
    saved_inversion json_loads w vp I p csv hs
  subst hcsv
  have hmap := runLoop_rows json_loads w (tsOf w I) rows hrl
  have hfpos : 0 < w.fps := lt_of_le_of_ne hfps (Ne.symm hf)
  have hD : (0 : ℚ) ≤ (w.total_frames : ℚ) / w.fps :=
    div_nonneg (Nat.cast_nonneg _) hfpos.le
  have hIpos : 0 < I := by
    rcases lt_trichotomy I 0 with hlt | heq | hgt
    · exfalso
      have hIle : ((I : ℤ) : ℚ) ≤ 0 := by exact_mod_cast hlt.le
      have hq : ((w.total_frames : ℚ) / w.fps) / (I : ℚ) ≤ 0 :=
        div_nonpos_of_nonneg_of_nonpos hD hIle
      have hnil : tsOf w I = [] := mkTimestamps_nil_of_nonpos _ _ hq
      rw [hnil] at hmap
      simp at hmap
      exact hne hmap
    · exact absurd (by rw [heq]; norm_num : (I : ℚ) = 0) hI0
    · exact hgt
  refine ⟨rfl, ?_, ?_, ?_⟩
  · have hl := congrArg List.length hmap
    simp only [List.length_map] at hl
    rw [hl, List.countP_eq_length_filter]
  · exact List.length_pos.mpr hne
  · have hpw : ((tsOf w I).filter (annSucceeds json_loads w)).Pairwise
        (fun a b => a < b) :=
      (mkTimestamps_pairwise _ _ hIpos).filter _
    have hid : ∀ a ∈ (tsOf w I).filter (annSucceeds json_loads w),
        pyround2 a = id a := by
      intro a ha
      obtain ⟨m, rfl⟩ := mkTimestamps_intValued _ _ a (List.mem_of_mem_filter ha)
      exact pyround2_intCast m
    have hmapid : ((tsOf w I).filter (annSucceeds json_loads w)).map pyround2
        = (tsOf w I).filter (annSucceeds json_loads w) := by
      rw [List.map_congr_left hid, List.map_id]
    have hply : (rows.map (fun r => r.timestamp)).Pairwise (fun a b => a < b) := by
      rw [hmap, hmapid]
      exact hpw
    exact List.pairwise_map.mp hply

/-- Witness for `c2_output_rows`: a concrete 2-second video at 1 fps, interval
1, whose two frames both annotate successfully, yields a table of exactly the
two successes. -/
theorem c2_witness :
    (CsvFile.mk column_order demoRows).rows.length
      = (tsOf w2 1).countP (annSucceeds demoLoads w2) ∧
    (CsvFile.mk column_order demoRows).rows.Pairwise
      (fun a b => a.timestamp < b.timestamp) :=
  ⟨(c2_output_rows demoLoads w2 "video.mp4" 1 "video.csv" ⟨column_order, demoRows⟩
      (by with_unfolding_all decide) (by with_unfolding_all decide)).2.1,
   (c2_output_rows demoLoads w2 "video.mp4" 1 "video.csv" ⟨column_order, demoRows⟩
      (by with_unfolding_all decide) (by with_unfolding_all decide)).2.2.2⟩

theorem strip_markdown_wrapFence (s : List Char) :
    strip_markdown (wrapFence s) = '\n' :: s := by
  have h8 : "```json\n".data = "```json".data ++ ['\n'] := by decide
  have hw : wrapFence s = "```json".data ++ ('\n' :: (s ++ "\n```".data)) := by
    unfold wrapFence
    rw [h8]
    simp [List.append_assoc]
  have hpre : "```json".data.isPrefixOf (wrapFence s) = true :=
    List.isPrefixOf_iff_prefix.mpr (by rw [hw]; exact List.prefix_append _ _)
  unfold strip_markdown
  rw [if_pos hpre, hw]
  have h7 : ("```json".data).length = 7 := by decide
  have hdrop : ("```json".data ++ ('\n' :: (s ++ "\n```".data))).drop 7
      = '\n' :: (s ++ "\n```".data) := by
    rw [← h7, List.drop_left]
  have h4 : ("\n```".data).length = 4 := by decide
  have hlen : ("```json".data ++ ('\n' :: (s ++ "\n```".data))).length - 11
      = s.length + 1 := by
    simp only [List.length_append, List.length_cons, h7, h4]
    omega
  rw [hdrop, hlen, List.take_succ_cons]
  congr 1
  exact List.take_left s _

theorem mkRow_flatten (t : ℚ) (data : JObj) (ps os : List String)
    (hp : lookupJ data "persons" = some (.jarr ps))
    (ho : lookupJ data "objects" = some (.jarr os)) :
    mkRow t data = .ok
      { timestamp := t
        title := (lookupJ data "title").getD .jnull
        caption := (lookupJ data "caption").getD .jnull
        scene_description := (lookupJ data "scene_description").getD .jnull
        persons := String.intercalate ", " ps
        objects := String.intercalate ", " os } := by
  unfold mkRow
  rw [hp, ho]
  simp [pyJoin]

/-- C3: a well-formed model response that contains all five required keys is
accepted by the annotation client both bare and wrapped in the recognized
markdown code fence, and the `persons`/`objects` list fields are flattened
to comma-joined strings that preserve the original element order.
(Hypotheses on `json_loads`: it parses the payload, it also parses the
payload with the leading newline the fence stripping leaves behind, and a
JSON payload does not itself start with a fence marker.) -/
theorem c3_fence_and_flatten (json_loads : List Char → Option JObj)
    (s : List Char) (data : JObj) (ps os : List String) (t : ℚ)
    (hnf : "```json".data.isPrefixOf s = false)
    (hjl : json_loads s = some data)
    (hjlw : json_loads ('\n' :: s) = some data)
    (hkeys : required_keys.all (fun k => jmem data k) = true)
    (hp : lookupJ data "persons" = some (.jarr ps))
    (ho : lookupJ data "objects" = some (.jarr os)) :
    (get_frame_annot json_loads (.content s)).1 = some data ∧
    (get_frame_annot json_loads (.content (wrapFence s))).1 = some data ∧
    ∃ row : Row, mkRow t data = .ok row ∧
      row.persons = String.intercalate ", " ps ∧
      row.objects = String.intercalate ", " os := by
  have hstrip : strip_markdown s = s := by
    unfold strip_markdown
    rw [hnf]
    simp
  refine ⟨?_, ?_, ?_⟩
  · simp [get_frame_annot, hstrip, hjl, validate, hkeys]
  · simp [get_frame_annot, strip_markdown_wrapFence, hjlw, validate, hkeys]
  · exact ⟨_, mkRow_flatten t data ps os hp ho, rfl, rfl⟩

/-- Witness for `c3_fence_and_flatten`: the concrete parser oracle `demoLoads`
with payload `demoStr` and annotation `demoObj`; `["a", "b"]` flattens to
`"a, b"`. -/
theorem c3_witness :
    (get_frame_annot demoLoads (.content demoStr)).1 = some demoObj ∧
    (get_frame_annot demoLoads (.content (wrapFence demoStr))).1 = some demoObj ∧
    ∃ row : Row, mkRow 0 demoObj = .ok row ∧
      row.persons = String.intercalate ", " ["a", "b"] ∧
      row.objects = String.intercalate ", " ["x"] :=
  c3_fence_and_flatten demoLoads demoStr demoObj ["a", "b"] ["x"] 0
    (by decide) (by decide) (by decide) (by decide) (by decide) (by decide)

/-- C4: for each of the three per-frame failure kinds — transport error,
invalid JSON, missing required key — the client returns no result, the loop
appends no row for that timestamp (its result equals the result of the
remaining timestamps), and iteration continues with the remaining timestamps
without aborting. -/
theorem c4_failure_skips (json_loads : List Char → Option JObj) (w : VideoWorld)
    (t : ℚ) (rest : List ℚ)
    (hread : w.read_frame t = true)
    (hfail : w.api_response t = .apiError ∨
      (∃ c, w.api_response t = .content c ∧ json_loads (strip_markdown c) = none) ∨
      (∃ c data, w.api_response t = .content c ∧
        json_loads (strip_markdown c) = some data ∧
        required_keys.all (fun k => jmem data k) = false)) :
    (get_frame_annot json_loads (w.api_response t)).1 = none ∧
    (runLoop json_loads w (t :: rest)).2 = (runLoop json_loads w rest).2 ∧
    ∃ evs, (runLoop json_loads w (t :: rest)).1
      = evs ++ (runLoop json_loads w rest).1 := by
  have hga : (get_frame_annot json_loads (w.api_response t)).1 = none := by
    rcases hfail with h | ⟨c, hc, hj⟩ | ⟨c, data, hc, hj, hk⟩
    · rw [h]; rfl
    · rw [hc]; simp [get_frame_annot, hj]
    · rw [hc]; simp [get_frame_annot, hj, validate, hk]
  refine ⟨hga, ?_, ?_⟩
  · rw [runLoop, if_pos hread]
    simp only [hga]
  · rw [runLoop, if_pos hread]
    simp only [hga]
    exact ⟨[Event.readFrame t, Event.annotateCall t]
      ++ (get_frame_annot json_loads (w.api_response t)).2
      ++ [Event.warnFailedAnnot t], by simp⟩

/-- Witness for `c4_failure_skips`: a transport failure at the only timestamp
of the `w4` run. -/
theorem c4_witness :
    (get_frame_annot noLoads (w4.api_response 0)).1 = none ∧
    (runLoop noLoads w4 (0 :: [])).2 = (runLoop noLoads w4 []).2 ∧
    ∃ evs, (runLoop noLoads w4 (0 :: [])).1 = evs ++ (runLoop noLoads w4 []).1 :=
  c4_failure_skips noLoads w4 0 [] (by decide) (Or.inl (by decide))

/-- C5: a run that passes every startup check but in which zero annotations
succeed terminates in the distinct "no annotations were generated" state and
performs no file write. -/
theorem c5_no_success_no_file (json_loads : List Char → Option JObj)
    (w : VideoWorld) (vp : String) (I : ℤ)
    (h1 : w.video_exists = true) (h2 : w.connect_ok = true)
    (h3 : w.cap_opened = true) (hf : w.fps ≠ 0) (hI0 : (I : ℚ) ≠ 0)
    (hzero : (tsOf w I).countP (annSucceeds json_loads w) = 0) :
    (process_video json_loads w vp I).1 = .noAnnotations ∧
    ∀ p, Event.writeFile p ∉ (process_video json_loads w vp I).2 := by
  have hok := runLoop_no_success json_loads w (tsOf w I) hzero
  rw [process_video_run json_loads w vp I h1 h2 h3 hf hI0]
  simp only [hok]
  constructor
  · rfl
  · intro p hp
    simp only [List.isEmpty_nil, if_true] at hp
    rcases List.mem_append.mp hp with h | h
    · rcases List.mem_append.mp h with h4 | h4
      · rcases List.mem_cons.mp h4 with h5 | h5
        · simp at h5
        · rcases List.mem_cons.mp h5 with h6 | h6
          · simp at h6
          · simp at h6
      · exact (runLoop_events json_loads w (tsOf w I) _ h4).2.2.2 p rfl
    · rcases List.mem_cons.mp h with h5 | h5
      · simp at h5
      · simp at h5

/-- Witness for `c5_no_success_no_file`: the one-frame run `w5` whose single
frame fails to decode. -/
theorem c5_witness :
    (process_video noLoads w5 "v.mp4" 1).1 = .noAnnotations ∧
    ∀ p, Event.writeFile p ∉ (process_video noLoads w5 "v.mp4" 1).2 :=
  c5_no_success_no_file noLoads w5 "v.mp4" 1 (by decide) (by decide) (by decide)
    (by with_unfolding_all decide) (by with_unfolding_all decide)
    (by with_unfolding_all decide)

/-- C6 counterexample: in the concrete run `w0`, the frame at timestamp 0
fails to decode; the run continues (it terminates in the `noAnnotations`
state), but the trace contains no warning naming timestamp 0 — the decode
failure is skipped silently, contradicting the claim that every recoverable
failure produces a logged warning naming the affected timestamp. -/
theorem c6_counterexample :
    w0.read_frame 0 = false ∧
    (0 : ℚ) ∈ tsOf w0 1 ∧
    (process_video noLoads w0 "v.mp4" 1).1 = .noAnnotations ∧
    Event.warnFailedAnnot 0 ∉ (process_video noLoads w0 "v.mp4" 1).2 := by
  with_unfolding_all decide

/-- C6 as amended: a failed annotation (any of the three client failure
kinds) produces the logged warning naming the affected timestamp and the run
continues; a frame decode failure also lets the run continue, but silently —
the only event for that timestamp is the read attempt, no warning is
logged. -/
theorem c6_amended_warnings (json_loads : List Char → Option JObj)
    (w : VideoWorld) (t : ℚ) (rest : List ℚ) :
    (w.read_frame t = true →
      (get_frame_annot json_loads (w.api_response t)).1 = none →
      Event.warnFailedAnnot t ∈ (runLoop json_loads w (t :: rest)).1 ∧
      (runLoop json_loads w (t :: rest)).2 = (runLoop json_loads w rest).2) ∧
    (w.read_frame t = false →
      runLoop json_loads w (t :: rest)
        = (Event.readFrame t :: (runLoop json_loads w rest).1,
           (runLoop json_loads w rest).2)) := by
  constructor
  · intro hr hga
    rw [runLoop, if_pos hr]
    simp only [hga]
    exact ⟨by simp, by trivial⟩
  · intro hr
    rw [runLoop, if_neg (by simp [hr])]

/-- Witness for `c6_amended_warnings`: the failed annotation at timestamp 1
of the `w0` run is warned about, naming the timestamp, and the run
continues. -/
theorem c6_witness :
    Event.warnFailedAnnot 1 ∈ (runLoop noLoads w0 (1 :: [])).1 ∧
    (runLoop noLoads w0 (1 :: [])).2 = (runLoop noLoads w0 []).2 :=
  (c6_amended_warnings noLoads w0 1 []).1 (by with_unfolding_all decide)
    (by with_unfolding_all decide)

/-- C7: both fatal conditions abort the run before any output file is
produced — a missing video file, an unreachable endpoint and an unopenable
container each yield their error state with no `writeFile` effect (for the
endpoint failure, also before any frame is read or annotated) — and in every
run over an existing file the capability probe happens exactly once, as the
very first effect. -/
theorem c7_fatal_and_probe (json_loads : List Char → Option JObj)
    (w : VideoWorld) (vp : String) (I : ℤ) :
    (w.video_exists = false →
      (process_video json_loads w vp I).1 = .errVideoNotFound ∧
      ∀ p, Event.writeFile p ∉ (process_video json_loads w vp I).2) ∧
    (w.video_exists = true → w.connect_ok = false →
      (process_video json_loads w vp I).1 = .errConnect ∧
      (∀ p, Event.writeFile p ∉ (process_video json_loads w vp I).2) ∧
      (∀ t, Event.readFrame t ∉ (process_video json_loads w vp I).2) ∧
      (∀ t, Event.annotateCall t ∉ (process_video json_loads w vp I).2)) ∧
    (w.video_exists = true → w.connect_ok = true → w.cap_opened = false →
      (process_video json_loads w vp I).1 = .errOpenVideo ∧
      ∀ p, Event.writeFile p ∉ (process_video json_loads w vp I).2) ∧
    (w.video_exists = true →
      ∃ rest, (process_video json_loads w vp I).2 = Event.probe :: rest ∧
        Event.probe ∉ rest) := by
  refine ⟨?_, ?_, ?_, ?_⟩
  · intro h1
    rw [process_video, if_neg (by simp [h1])]
    exact ⟨rfl, fun p hp => by simp at hp⟩
  · intro h1 h2
    rw [process_video, if_pos (by simp [h1]), if_neg (by simp [h2])]
    exact ⟨rfl, fun p hp => by simp at hp, fun t hp => by simp at hp,
      fun t hp => by simp at hp⟩
  · intro h1 h2 h3
    rw [process_video, if_pos (by simp [h1]), if_pos (by simp [h2]),
      if_neg (by simp [h3])]
    exact ⟨rfl, fun p hp => by simp at hp⟩
  · intro h1
    by_cases h2 : w.connect_ok
    case neg =>
      rw [process_video, if_pos (by simp [h1]), if_neg (by simp [h2])]
      exact ⟨[], rfl, by simp⟩
    by_cases h3 : w.cap_opened
    case neg =>
      rw [process_video, if_pos (by simp [h1]), if_pos (by simp [h2]),
        if_neg (by simp [h3])]
      exact ⟨[], rfl, by simp⟩
    have hnp : Event.probe ∉ (runLoop json_loads w (tsOf w I)).1 := by
      intro hp
      exact (runLoop_events json_loads w (tsOf w I) _ hp).1 rfl
    by_cases hf : w.fps = 0
    case pos =>
      rw [process_video, if_pos (by simp [h1]), if_pos (by simp [h2]),
        if_pos (by simp [h3])]
      simp only [pydiv, if_pos hf]
      exact ⟨[Event.openVideo], rfl, by simp⟩
    by_cases hI0 : (I : ℚ) = 0
    case pos =>
      rw [process_video, if_pos (by simp [h1]), if_pos (by simp [h2]),
        if_pos (by simp [h3])]
      simp only [pydiv, if_neg hf, if_pos hI0]
      exact ⟨[Event.openVideo], rfl, by simp⟩
    rw [process_video_run json_loads w vp I (by simp [h1]) (by simp [h2])
      (by simp [h3]) hf hI0]
    rcases hrl : (runLoop json_loads w (tsOf w I)).2 with e | rows
    · refine ⟨Event.openVideo :: (runLoop json_loads w (tsOf w I)).1, rfl, ?_⟩
      intro hp
      rcases List.mem_cons.mp hp with h | h
      · simp at h
      · exact hnp h
    · rcases rows with _ | ⟨r0, rows2⟩
      · refine ⟨Event.openVideo ::
          ((runLoop json_loads w (tsOf w I)).1 ++ [Event.noAnnotationsMsg]), rfl, ?_⟩
        intro hp
        rcases List.mem_cons.mp hp with h | h
        · simp at h
        · rcases List.mem_append.mp h with h4 | h4
          · exact hnp h4
          · simp at h4
      · rcases hws : with_suffix vp ".csv" with e2 | out
        · refine ⟨Event.openVideo :: (runLoop json_loads w (tsOf w I)).1, rfl, ?_⟩
          intro hp
          rcases List.mem_cons.mp hp with h | h
          · simp at h
          · exact hnp h
        · refine ⟨Event.openVideo ::
            ((runLoop json_loads w (tsOf w I)).1 ++ [Event.writeFile out]), rfl, ?_⟩
          intro hp
          rcases List.mem_cons.mp hp with h | h
          · simp at h
          · rcases List.mem_append.mp h with h4 | h4
            · exact hnp h4
            · simp at h4

/-- Witness for `c7_fatal_and_probe`: the `w7` run, whose video file does not
exist, aborts with no output file. -/
theorem c7_witness :
    (process_video noLoads w7 "v.mp4" 1).1 = .errVideoNotFound ∧
    ∀ p, Event.writeFile p ∉ (process_video noLoads w7 "v.mp4" 1).2 :=
  (c7_fatal_and_probe noLoads w7 "v.mp4" 1).1 (by decide)

/-- C8: every run that writes an output file writes it at
`Path(video_path).with_suffix(".csv")` — the input path with its extension
replaced: same directory prefix, same stem, `.csv` extension, hence a sibling
of the input video. -/
theorem c8_output_path (json_loads : List Char → Option JObj) (w : VideoWorld)
    (vp : String) (I : ℤ) (p : String) (csv : CsvFile)
    (hs : (process_video json_loads w vp I).1 = .saved p csv) :
    with_suffix vp ".csv" = .ok p ∧
    p = String.mk (dirOf vp ++ stemOf vp ++ ".csv".data) := by
  obtain ⟨_, _, _, _, _, rows, _, _, _, hws⟩ :=
    saved_inversion json_loads w vp I p csv hs
  refine ⟨hws, ?_⟩
  rw [with_suffix] at hws
  rw [if_neg (by decide), if_neg (by decide)] at hws
  by_cases hn : fileNameOf vp = []
  · rw [if_pos hn] at hws
    cases hws
  · rw [if_neg hn] at hws
    exact (Except.ok.inj hws).symm

/-- Witness for `c8_output_path`: the `w2` run on `video.mp4` writes
`video.csv`. -/
theorem c8_witness :
    with_suffix "video.mp4" ".csv" = .ok "video.csv" ∧
    "video.csv" = String.mk (dirOf "video.mp4" ++ stemOf "video.mp4" ++ ".csv".data) :=
  c8_output_path demoLoads w2 "video.mp4" 1 "video.csv" ⟨column_order, demoRows⟩
    (by with_unfolding_all decide)

/-- C9: the duration and timestamp-count divisions are unguarded — a run over
an opened video that reports a frame rate of 0, or a run invoked with
interval 0, terminates with an uncaught `ZeroDivisionError` rather than any
of the defined failure states. -/
theorem c9_division_crash (json_loads : List Char → Option JObj)
    (w : VideoWorld) (vp : String) (I : ℤ)
    (h1 : w.video_exists = true) (h2 : w.connect_ok = true)
    (h3 : w.cap_opened = true) :
    (w.fps = 0 → (process_video json_loads w vp I).1 = .crash .zeroDivision) ∧
    (w.fps ≠ 0 → I = 0 →
      (process_video json_loads w vp I).1 = .crash .zeroDivision) := by
  constructor
  · intro hf
    rw [process_video, if_pos (by simp [h1]), if_pos (by simp [h2]),
      if_pos (by simp [h3])]
    simp only [pydiv, if_pos hf]
  · intro hf hI
    rw [process_video, if_pos (by simp [h1]), if_pos (by simp [h2]),
      if_pos (by simp [h3])]
    have hI0 : ((I : ℤ) : ℚ) = 0 := by rw [hI]; norm_num
    simp only [pydiv, if_neg hf, if_pos hI0]

/-- Witness for `c9_division_crash`: the `w9` run, whose opened video reports
0 fps, crashes with a division error. -/
theorem c9_witness :
    (process_video noLoads w9 "v.mp4" 5).1 = .crash .zeroDivision :=
  (c9_division_crash noLoads w9 "v.mp4" 5 (by decide) (by decide) (by decide)).1
    (by with_unfolding_all decide)

/-- C10: key validation checks only the presence of the five required keys,
so a response dict carrying extra keys is accepted; the built row depends
only on the values of the required keys (so extra response keys never reach
the output); and every written table carries exactly the six fixed columns
as its header. -/
theorem c10_extra_keys (json_loads : List Char → Option JObj) (c : List Char)
    (data : JObj) (t : ℚ)
    (hkeys : required_keys.all (fun k => jmem data k) = true)
    (hjl : json_loads (strip_markdown c) = some data) :
    (get_frame_annot json_loads (.content c)).1 = some data ∧
    (∀ data2 : JObj, (∀ k ∈ required_keys, lookupJ data2 k = lookupJ data k) →
      mkRow t data2 = mkRow t data) ∧
    (∀ (jl2 : List Char → Option JObj) (w : VideoWorld) (vp : String) (I : ℤ)
        (p : String) (csv : CsvFile),
      (process_video jl2 w vp I).1 = .saved p csv → csv.header = column_order) := by
  refine ⟨?_, ?_, ?_⟩
  · simp [get_frame_annot, hjl, validate, hkeys]
  · intro data2 hagree
    have hti := hagree "title" (by simp [required_keys])
    have hca := hagree "caption" (by simp [required_keys])
    have hsc := hagree "scene_description" (by simp [required_keys])
    have hpe := hagree "persons" (by simp [required_keys])
    have hob := hagree "objects" (by simp [required_keys])
    unfold mkRow
    rw [hti, hca, hsc, hpe, hob]
  · intro jl2 w vp I p csv hs
    obtain ⟨_, _, _, _, _, rows, _, _, hcsv, _⟩ := saved_inversion jl2 w vp I p csv hs
    rw [hcsv]

/-- Witness for `c10_extra_keys`: the dict `demoObjExtra`, which carries an
extra sixth key, is accepted, and its row equals the row of `demoObj`, which
agrees with it on the required keys. -/
theorem c10_witness :
    (get_frame_annot extraLoads (.content demoStr)).1 = some demoObjExtra ∧
    mkRow 0 demoObj = mkRow 0 demoObjExtra :=
  ⟨(c10_extra_keys extraLoads demoStr demoObjExtra 0 (by decide) (by decide)).1,
   (c10_extra_keys extraLoads demoStr demoObjExtra 0 (by decide) (by decide)).2.1
     demoObj (by decide)⟩

end AnnotateVideo
